import Mathlib

/-!
# Verification of the visual-sound-mixer audio core

Shallow embedding of the audio engine of `src/hooks/useAudioEngine.js` and of
the debug overlay of `src/components/SoundOrb.jsx`, together with proofs of the
spec claims about them.

Modelling conventions:
* JavaScript numbers are modelled as exact arithmetic — rationals (`ℚ`) where
  the source only adds, multiplies, divides and compares, and reals (`ℝ`) where
  the source uses `Math.pow`, `Math.tan`, `Math.log10` with non-integral
  arguments.  `-Infinity` (which the LUFS code produces via `Math.log10(0)` and
  uses as a sentinel) is modelled by an explicit sum type `LVal`.
* Web-Audio node mutation (`filter.type = …`, `frequency.setTargetAtTime`,
  `Q.setValueAtTime`) is modelled by returning the written values as a record.
-/

namespace VSM

/-- Filter types written to `BiquadFilterNode.type` by `applyFilter`. -/
inductive FilterType where
  | highpass : FilterType
  | lowpass : FilterType
deriving DecidableEq

/-- The values `applyFilter` (useAudioEngine.js:302-324) writes to the voice's
biquad filter node: the type, the target cutoff frequency and the Q. -/
structure FilterSettings where
  ftype : FilterType
  freq : ℝ
  q : ℚ

/-- Model of `getFilterCompensation` (useAudioEngine.js:22-31): loudness compensation
gain for the filter position `y`. -/
def getFilterCompensation (y : ℚ) : ℚ :=
  if 2/5 ≤ y ∧ y ≤ 3/5 then 1
  else if y < 2/5 then
    let t := 1 - y / (2/5)
    1 - t * (15/100)
  else
    let t := (y - 3/5) / (2/5)
    1 + t * t * (8/10)

/-- The compensation factor the engine actually uses in `startSound`
(useAudioEngine.js:159) and `updateSound` (line 207):
`filterEnabled ? getFilterCompensation(y) : 1.0`. -/
def engineCompensation (filterEnabled : Bool) (y : ℚ) : ℚ :=
  if filterEnabled then getFilterCompensation y else 1

/-- Model of `applyFilter` (useAudioEngine.js:302-324), as the record of values
written to the filter node.  Cutoffs follow the source formulas
`20 * Math.pow(8000/20, t)` and `20000 * Math.pow(50/20000, t)` with real
exponentiation. -/
noncomputable def applyFilter (y : ℚ) (filterEnabled : Bool) : FilterSettings :=
  if !filterEnabled then
    { ftype := FilterType.lowpass, freq := 20000, q := 1/2 }
  else if y < 2/5 then
    let t : ℚ := 1 - y / (2/5)
    { ftype := FilterType.highpass, freq := 20 * (8000/20 : ℝ) ^ (t : ℝ), q := 1/2 }
  else if y > 3/5 then
    let t : ℚ := (y - 3/5) / (2/5)
    { ftype := FilterType.lowpass, freq := 20000 * (50/20000 : ℝ) ^ (t : ℝ), q := 1/2 }
  else
    { ftype := FilterType.lowpass, freq := 20000, q := 1/2 }

/-- The pan value the engine writes to the stereo panner
(useAudioEngine.js:162-163, 211-216): `clamp(x*2 - 1, -1, 1)`. -/
def enginePan (x : ℚ) : ℚ :=
  max (-1) (min 1 (x * 2 - 1))

/-- Final gain computed in `startSound`/`updateSound`
(useAudioEngine.js:157-160): cubic size curve times compensation, muted to 0,
capped at 1.5. -/
def finalVolume (size y : ℚ) (muted filterEnabled : Bool) : ℚ :=
  let t := max 0 (min 1 (size / 200))
  let baseVolume := t * t * t
  let compensation := engineCompensation filterEnabled y
  if muted then 0 else min (3/2) (baseVolume * compensation)

/-! ## Debug overlay (`getFilterDebugInfo`, SoundOrb.jsx:222-264)

The JS function returns formatted strings; the model returns the numeric
values those strings are formatted from (the claims compare values, and the
formatting is injective-enough display sugar).  In the pass band the overlay
displays no frequency at all (`freq = ''`), modelled as `none`.  Note the JS
function takes no `filterEnabled` argument — the call site
(SoundOrb.jsx:134) passes only `orb.x, orb.y, orb.size`. -/

/-- Filter type label shown by the debug overlay. -/
inductive DebugFilterType where
  | HPF : DebugFilterType
  | LPF : DebugFilterType
  | OFF : DebugFilterType
deriving DecidableEq

/-- Numeric content of the debug overlay readout. -/
structure DebugInfo where
  ftype : DebugFilterType
  freq : Option ℝ
  pan : ℚ
  comp : ℚ

/-- Numeric model of `getFilterDebugInfo` (SoundOrb.jsx:222-264).  The `size`
argument only feeds the gain readout (not part of claim C1) and is kept for
signature fidelity. -/
noncomputable def getFilterDebugInfo (x y _size : ℚ) : DebugInfo :=
  let ft :=
    if y < 2/5 then DebugFilterType.HPF
    else if y > 3/5 then DebugFilterType.LPF
    else DebugFilterType.OFF
  let fr : Option ℝ :=
    if y < 2/5 then some (20 * (8000/20 : ℝ) ^ ((1 - y / (2/5) : ℚ) : ℝ))
    else if y > 3/5 then some (20000 * (50/20000 : ℝ) ^ (((y - 3/5) / (2/5) : ℚ) : ℝ))
    else none
  let panValue := x * 2 - 1
  let comp :=
    if y < 2/5 then 1 - (1 - y / (2/5)) * (15/100)
    else if y > 3/5 then 1 + ((y - 3/5) / (2/5)) * ((y - 3/5) / (2/5)) * (8/10)
    else 1
  { ftype := ft, freq := fr, pan := panValue, comp := comp }

/-! ## Start scheduling (`startSound`, useAudioEngine.js:166-176)

`startSound` either applies the final gain immediately
(`gain.gain.setValueAtTime(finalVolume, ctx.currentTime); source.start(0)`) or,
when `startAt && startAt > ctx.currentTime`, holds the gain at 0 from creation
time and sets it to the final gain at `startAt`, starting the source at
`startAt`.  The model records the `setValueAtTime` events on the gain param and
the argument passed to `source.start`.  `startAt && …` uses JS truthiness:
`startAt = 0` (falsy) is treated as immediate, which the model keeps. -/

/-- Gain automation events (`setValueAtTime` calls, chronological) plus the
argument of `source.start`. -/
structure StartSchedule where
  gainEvents : List (ℚ × ℚ)
  sourceStartArg : ℚ

/-- The scheduling part of `startSound` (useAudioEngine.js:166-176) for a
computed target gain `finalVol` at audio-clock time `now`. -/
def startSoundSchedule (now finalVol : ℚ) (startAt : Option ℚ) : StartSchedule :=
  match startAt with
  | some s =>
      if s ≠ 0 ∧ s > now then
        { gainEvents := [(now, 0), (s, finalVol)], sourceStartArg := s }
      else
        { gainEvents := [(now, finalVol)], sourceStartArg := 0 }
  | none => { gainEvents := [(now, finalVol)], sourceStartArg := 0 }

/-- Semantics of `AudioParam.setValueAtTime` for a chronological event list:
the value at time `τ` is the value of the last event at or before `τ`,
or `init` (the param's creation value) if none has fired yet. -/
def gainValueAt (events : List (ℚ × ℚ)) (init τ : ℚ) : ℚ :=
  events.foldl (fun acc e => if e.1 ≤ τ then e.2 else acc) init

/-! ## Voice teardown (`stopSound`, useAudioEngine.js:181-197)

`nodesRef` is a `Map` from orb id to the voice's node chain; `stopSound` looks
the id up, and if present stops/disconnects every node of the chain and deletes
the entry.  Node handles are modelled as opaque numbers; the second component
of the result is the list of chain resources that were released. -/

/-- The per-voice node chain stored in `nodesRef`
(useAudioEngine.js:178). -/
structure VoiceChain where
  source : ℕ
  gain : ℕ
  filter : ℕ
  panner : ℕ
  analyser : ℕ
  reverbSendLPF : ℕ
deriving DecidableEq

/-- The `nodesRef` map, as an association list keyed by orb id. -/
abbrev NodesMap : Type := List (ℕ × VoiceChain)

/-- Lookup (`Map.get`) on the nodes map. -/
def mapLookup (m : NodesMap) (orbId : ℕ) : Option VoiceChain :=
  (List.find? (fun p => p.1 == orbId) m).map (fun p => p.2)

/-- All chain resources held by one voice (the nodes `stopSound`
stops/disconnects). -/
def chainResources (c : VoiceChain) : List ℕ :=
  [c.source, c.gain, c.filter, c.panner, c.analyser, c.reverbSendLPF]

/-- Model of `stopSound` (useAudioEngine.js:181-197): if the orb has an entry, release
its chain and delete the entry (`Map.delete`); otherwise do nothing.  The
JS `try … catch` around the node teardown swallows "already stopped" errors,
so the function never throws — modelled by totality. -/
def stopSound (m : NodesMap) (orbId : ℕ) : NodesMap × List ℕ :=
  match mapLookup m orbId with
  | some c => (List.filter (fun p => p.1 != orbId) m, chainResources c)
  | none => (m, [])

/-! ## WAV export quantization (`exportAudioBufferAsWav`, useAudioEngine.js:515-523)

Per interleaved sample: clamp the float to [-1, 1], scale negatives by 0x8000
and non-negatives by 0x7FFF, then `DataView.setInt16` truncates the float
toward zero and wraps it modulo 2^16 into a signed 16-bit value. -/

/-- JS `ToIntegerOrInfinity` on a finite number: truncation toward zero. -/
noncomputable def jsTrunc (r : ℝ) : ℤ :=
  if 0 ≤ r then ⌊r⌋ else ⌈r⌉

/-- The number→int16 conversion of `DataView.setInt16`: truncate, then wrap
modulo 2^16 into [-32768, 32767]. -/
noncomputable def jsToInt16 (r : ℝ) : ℤ :=
  (jsTrunc r + 32768) % 65536 - 32768

/-- The scaled sample of useAudioEngine.js:518-519:
`sample = clamp(s, -1, 1); int16 = sample < 0 ? sample * 0x8000 : sample * 0x7FFF`. -/
noncomputable def wavScaled (s : ℝ) : ℝ :=
  let sample := max (-1) (min 1 s)
  if sample < 0 then sample * 32768 else sample * 32767

/-- The 16-bit integer written to the WAV data chunk for one float sample. -/
noncomputable def wavSample (s : ℝ) : ℤ :=
  jsToInt16 (wavScaled s)

/-! ## Audio buffers and the BS.1770 LUFS pipeline
(useAudioEngine.js:328-480) -/

/-- A decoded `AudioBuffer`: sample rate, frame count, one float array per
channel. -/
structure JSAudioBuffer where
  sampleRate : ℕ
  len : ℕ
  channels : List (List ℝ)

/-- Channel count, as `AudioBuffer.numberOfChannels`. -/
def JSAudioBuffer.numberOfChannels (b : JSAudioBuffer) : ℕ :=
  b.channels.length

/-- A JS number that is either `-Infinity` or finite — the value space of the
LUFS code, where `Math.log10(0) = -Infinity` flows through arithmetic and
comparisons.  (`+Infinity`/`NaN` are unreachable there: powers are sums of
squares.) -/
inductive LVal where
  | negInf : LVal
  | fin : ℝ → LVal

/-- Computes `-0.691 + 10 * Math.log10 p` with JS semantics at zero:
`Math.log10 0 = -Infinity`, and `-0.691 + 10 * -Infinity = -Infinity`. -/
noncomputable def lvalOfPower (p : ℝ) : LVal :=
  if 0 < p then LVal.fin (-0.691 + 10 * Real.logb 10 p) else LVal.negInf

/-- JS comparison `l > c` for a loudness `l` and a finite threshold `c`
(`-Infinity > c` is false). -/
noncomputable def LVal.gtR : LVal → ℝ → Bool
  | LVal.negInf, _ => false
  | LVal.fin r, c => decide (c < r)

/-- Computes `Math.pow(10, (l + 0.691) / 10)` — power of a block loudness
(useAudioEngine.js:428, 438); JS gives `10 ^ -Infinity = 0`. -/
noncomputable def LVal.power : LVal → ℝ
  | LVal.negInf => 0
  | LVal.fin r => (10 : ℝ) ^ ((r + 0.691) / 10)

/-- One biquad difference-equation stage
(useAudioEngine.js:355-372): `y = b0*x + b1*x1 + b2*x2 - a1*y1 - a2*y2`,
with the state shifts of the source. -/
structure BiquadCoeffs where
  b0 : ℝ
  b1 : ℝ
  b2 : ℝ
  a1 : ℝ
  a2 : ℝ

/-- Run one biquad stage over the sample list, carrying the delayed inputs
`x1 x2` and outputs `y1 y2` (all initially 0 in the source). -/
def biquadRun (c : BiquadCoeffs) : ℝ → ℝ → ℝ → ℝ → List ℝ → List ℝ
  | _, _, _, _, [] => []
  | x1, x2, y1, y2, x :: xs =>
      let y := c.b0 * x + c.b1 * x1 + c.b2 * x2 - c.a1 * y1 - c.a2 * y2
      y :: biquadRun c x x1 y y1 xs

/-- Stage-1 K-weighting coefficients (high shelf,
useAudioEngine.js:331-343). -/
noncomputable def kCoeffs1 (sampleRate : ℕ) : BiquadCoeffs :=
  let f0 : ℝ := 1681.974450955533
  let G : ℝ := 3.999843853973347
  let Q : ℝ := 0.7071752369554196
  let K := Real.tan (Real.pi * f0 / sampleRate)
  let Vh := (10 : ℝ) ^ (G / 20)
  let Vb := Vh ^ (0.4996667741545416 : ℝ)
  let a0 := 1 + K / Q + K * K
  { b0 := (Vh + Vb * K / Q + K * K) / a0
    b1 := 2 * (K * K - Vh) / a0
    b2 := (Vh - Vb * K / Q + K * K) / a0
    a1 := 2 * (K * K - 1) / a0
    a2 := (1 - K / Q + K * K) / a0 }

/-- Stage-2 K-weighting coefficients (high-pass,
useAudioEngine.js:345-353). -/
noncomputable def kCoeffs2 (sampleRate : ℕ) : BiquadCoeffs :=
  let f0 : ℝ := 38.13547087602444
  let Q : ℝ := 0.5003270373238773
  let K := Real.tan (Real.pi * f0 / sampleRate)
  let a0 := 1 + K / Q + K * K
  { b0 := 1 / a0
    b1 := -2 / a0
    b2 := 1 / a0
    a1 := 2 * (K * K - 1) / a0
    a2 := (1 - K / Q + K * K) / a0 }

/-- Model of `applyKWeighting` (useAudioEngine.js:328-375): the two biquad stages in
sequence, each with zero initial state. -/
noncomputable def applyKWeighting (samples : List ℝ) (sampleRate : ℕ) : List ℝ :=
  biquadRun (kCoeffs2 sampleRate) 0 0 0 0
    (biquadRun (kCoeffs1 sampleRate) 0 0 0 0 samples)

/-- Computes `Math.round(sampleRate * 0.4)` — 400 ms block size in frames
(useAudioEngine.js:392).  `round` here, like `Math.round`, sends halves up. -/
def measureBlockSize (sampleRate : ℕ) : ℕ :=
  (round ((sampleRate : ℚ) * (2/5))).toNat

/-- Computes `Math.round(sampleRate * 0.1)` — 100 ms hop size in frames
(useAudioEngine.js:393). -/
def measureStepSize (sampleRate : ℕ) : ℕ :=
  (round ((sampleRate : ℚ) * (1/10))).toNat

/-- Start offsets of the measurement loop
`for (start = 0; start + blockSize <= length; start += stepSize)`
(useAudioEngine.js:396). -/
def blockStarts (blockSize stepSize len : ℕ) : List ℕ :=
  if blockSize ≤ len then
    (List.range ((len - blockSize) / stepSize + 1)).map (fun k => k * stepSize)
  else []

/-- Computes the inner per-channel sum of squares over one block window; JS index
reads are modelled by `getD _ 0` (in-range on well-formed buffers). -/
noncomputable def sumSqFrom (d : List ℝ) (start n : ℕ) : ℝ :=
  ((List.range n).map (fun j => d.getD (start + j) 0 * d.getD (start + j) 0)).sum

/-- Power of one 400 ms block: per-channel mean square, summed over channels
with unit channel weights (useAudioEngine.js:397-405). -/
noncomputable def blockPowerAt (kw : List (List ℝ)) (blockSize start : ℕ) : ℝ :=
  (kw.map (fun d => sumSqFrom d start blockSize / blockSize)).sum

/-- The K-weighted channels of a buffer (useAudioEngine.js:387-390). -/
noncomputable def kWeightedChannels (buf : JSAudioBuffer) : List (List ℝ) :=
  buf.channels.map (fun cd => applyKWeighting cd buf.sampleRate)

/-- The `blockLoudness` array (useAudioEngine.js:394-408). -/
noncomputable def blockLoudnessList (buf : JSAudioBuffer) : List LVal :=
  (blockStarts (measureBlockSize buf.sampleRate) (measureStepSize buf.sampleRate)
      buf.len).map
    (fun start =>
      lvalOfPower (blockPowerAt (kWeightedChannels buf)
        (measureBlockSize buf.sampleRate) start))

/-- Whole-buffer power of the short-buffer fallback
(useAudioEngine.js:410-420). -/
noncomputable def wholeBufferPower (buf : JSAudioBuffer) : ℝ :=
  ((kWeightedChannels buf).map (fun d => sumSqFrom d 0 buf.len / buf.len)).sum

/-- Model of `measureIntegratedLUFS` (useAudioEngine.js:377-443). -/
noncomputable def measureIntegratedLUFS (buf : JSAudioBuffer) : LVal :=
  let blocks := blockLoudnessList buf
  if blocks.isEmpty then
    lvalOfPower (wholeBufferPower buf)
  else
    let gated70 := blocks.filter (fun l => l.gtR (-70))
    if gated70.isEmpty then LVal.negInf
    else
      let meanPower70 := (gated70.map LVal.power).sum / gated70.length
      let relativeThreshold := -0.691 + 10 * Real.logb 10 meanPower70 - 10
      let gatedRelative := blocks.filter (fun l => l.gtR relativeThreshold)
      if gatedRelative.isEmpty then LVal.negInf
      else
        let meanPowerRel := (gatedRelative.map LVal.power).sum / gatedRelative.length
        LVal.fin (-0.691 + 10 * Real.logb 10 meanPowerRel)

/-- Model of `normalizeLUFS` (useAudioEngine.js:445-480).  If the measurement is
`-Infinity` the input buffer itself is returned; otherwise a fresh buffer of
identical shape is filled with `input[ch][i] * clampedGain`.  The verification
remeasurement of the source (line 472) only feeds `console.log` and does not
alter the result, so it has no counterpart in the value model. -/
noncomputable def normalizeLUFS (buf : JSAudioBuffer) (targetLUFS : ℝ) : JSAudioBuffer :=
  match measureIntegratedLUFS buf with
  | LVal.negInf => buf
  | LVal.fin current =>
      let gainDB := targetLUFS - current
      let gainLinear := (10 : ℝ) ^ (gainDB / 20)
      let clampedGain := min (max gainLinear 0.01) 10
      { sampleRate := buf.sampleRate
        len := buf.len
        channels := buf.channels.map (fun cd =>
          (List.range buf.len).map (fun i => cd.getD i 0 * clampedGain)) }

/-! ## Gating definitions for claim C5

Two renderings of the two-stage gate.  `gatingFullListLUFS` is the gating as
the source performs it: its relative gate re-filters the FULL block list
(useAudioEngine.js:433 filters `blockLoudness`, not the absolute-gate
survivors).  `gatingCascadeLUFS` is the gating as the claim (and BS.1770's
cascade) states it: the relative gate discards from the absolute-gate
survivors.  The two differ exactly when the relative threshold drops below
-70 LUFS, where the source re-admits blocks the absolute gate had discarded.
Thresholds are read with the source's strict convention (a block is kept when
its loudness is strictly above the gate). -/

/-- Loudness `L = -0.691 + 10·log10(power)` of a positive mean power. -/
noncomputable def loudnessOfPower (p : ℝ) : ℝ :=
  -0.691 + 10 * Real.logb 10 p

/-- Mean power of a list of block loudness values. -/
noncomputable def meanPower (ls : List LVal) : ℝ :=
  (ls.map LVal.power).sum / ls.length

/-- Two-stage gating with the relative gate applied to the full block list —
what useAudioEngine.js:423-442 computes. -/
noncomputable def gatingFullListLUFS (blocks : List LVal) : LVal :=
  let afterAbsolute := blocks.filter (fun l => l.gtR (-70))
  if afterAbsolute.isEmpty then LVal.negInf
  else
    let relTh := loudnessOfPower (meanPower afterAbsolute) - 10
    let afterRelative := blocks.filter (fun l => l.gtR relTh)
    if afterRelative.isEmpty then LVal.negInf
    else LVal.fin (loudnessOfPower (meanPower afterRelative))

/-- Two-stage gating as the claim states it (BS.1770's cascade): the relative
gate discards from the absolute-gate survivors. -/
noncomputable def gatingCascadeLUFS (blocks : List LVal) : LVal :=
  let afterAbsolute := blocks.filter (fun l => l.gtR (-70))
  if afterAbsolute.isEmpty then LVal.negInf
  else
    let relTh := loudnessOfPower (meanPower afterAbsolute) - 10
    let afterRelative := afterAbsolute.filter (fun l => l.gtR relTh)
    if afterRelative.isEmpty then LVal.negInf
    else LVal.fin (loudnessOfPower (meanPower afterRelative))

/-- The interleaved 16-bit samples of the WAV data chunk
(useAudioEngine.js:515-523): frame-major, channel-minor. -/
noncomputable def wavDataInts (buf : JSAudioBuffer) : List ℤ :=
  (List.range buf.len).flatMap (fun i =>
    buf.channels.map (fun cd => wavSample (cd.getD i 0)))

/-! ## Concrete witnesses' data -/

/-- A concrete two-voice node map. -/
def nodesMapExample : NodesMap :=
  [(1, ⟨1, 2, 3, 4, 5, 6⟩), (2, ⟨7, 8, 9, 10, 11, 12⟩)]

/-- A one-frame mono buffer at 48 kHz holding the single sample 1 —
shorter than one 400 ms block, so measurement takes the short-buffer
fallback. -/
def bufOne : JSAudioBuffer := ⟨48000, 1, [[1]]⟩

/-- A 4-frame mono buffer at a (toy) 10 Hz sample rate: the 400 ms block is 4
frames, so exactly one gated block exists. -/
def bufFour : JSAudioBuffer := ⟨10, 4, [[1, 0, 0, 0]]⟩

/-- An all-zero 4-frame mono buffer. -/
def bufZero : JSAudioBuffer := ⟨10, 4, [[0, 0, 0, 0]]⟩

/-- The integrated loudness measured on `bufOne` (finite: the K-weighted
response of a unit impulse is nonzero). -/
noncomputable def measBufOne : ℝ :=
  -0.691 + 10 * Real.logb 10 (wholeBufferPower bufOne)

/-! # Theorems -/

/-- C2: for every `y ∈ [0.4, 0.6]` with the filter enabled, `applyFilter` sets
a lowpass at 20000 Hz and the loudness compensation is exactly 1 (pass-through
band); the mapping takes neither `x` nor `size` as input, so the result is
independent of both. -/
theorem c2_passthrough_band (y : ℚ) (h1 : 2/5 ≤ y) (h2 : y ≤ 3/5) :
    (applyFilter y true).ftype = FilterType.lowpass ∧
    (applyFilter y true).freq = 20000 ∧
    engineCompensation true y = 1 := by
  have hy1 : ¬ y < 2/5 := not_lt.mpr h1
  have hy2 : ¬ y > 3/5 := not_lt.mpr h2
  refine ⟨?_, ?_, ?_⟩ <;>
    simp [applyFilter, engineCompensation, getFilterCompensation, hy1, hy2, h1, h2]

/-- Witness for C2 at `y = 1/2`. -/
theorem c2_passthrough_band_witness :
    ((2:ℚ)/5 ≤ 1/2 ∧ (1:ℚ)/2 ≤ 3/5) ∧
    ((applyFilter (1/2) true).ftype = FilterType.lowpass ∧
      (applyFilter (1/2) true).freq = 20000 ∧
      engineCompensation true (1/2) = 1) :=
  ⟨⟨by norm_num, by norm_num⟩,
    c2_passthrough_band (1/2) (by norm_num) (by norm_num)⟩

/-- C3 counterexample: the claim says `applyFilter` sets `Q = 0.707`, but at
`y = 1/2` (and in fact everywhere) the source writes `Q = 0.5`
(useAudioEngine.js:306, 323). -/
theorem c3_counterexample : (applyFilter (1/2) true).q ≠ 707/1000 := by
  have h1 : ¬ (1:ℚ)/2 < 2/5 := by norm_num
  have h2 : ¬ (1:ℚ)/2 > 3/5 := by norm_num
  simp [applyFilter, h1, h2]
  norm_num

/-- C3 amended: for every `y` and every value of `filterEnabled`, the Q value
`applyFilter` writes to the per-voice filter node is 0.5. -/
theorem c3_q_amended (y : ℚ) (fe : Bool) : (applyFilter y fe).q = 1/2 := by
  cases fe <;> unfold applyFilter <;> split_ifs <;> rfl

/-- C1 counterexample: with `filterEnabled = false` the engine forces a
pass-through lowpass at 20000 Hz with compensation 1, but the overlay —
whose function takes no `filterEnabled` argument (SoundOrb.jsx:134 passes only
`orb.x, orb.y, orb.size`) — still derives HPF 8000 Hz and compensation 0.85
from `y = 0`, so the displayed and applied parameters disagree. -/
theorem c1_counterexample :
    engineCompensation false 0 ≠ (getFilterDebugInfo 0 0 200).comp ∧
    (applyFilter 0 false).ftype = FilterType.lowpass ∧
    (getFilterDebugInfo 0 0 200).ftype = DebugFilterType.HPF ∧
    (applyFilter 0 false).freq = 20000 ∧
    (getFilterDebugInfo 0 0 200).freq = some 8000 := by
  have h0 : (0:ℚ) < 2/5 := by norm_num
  refine ⟨?_, ?_, ?_, ?_, ?_⟩
  · simp [engineCompensation, getFilterDebugInfo, h0]
    norm_num
  · simp [applyFilter]
  · simp [getFilterDebugInfo, h0]
  · simp [applyFilter]
  · simp [getFilterDebugInfo, h0]
    norm_num

/-- C1 amended: the overlay and the engine agree whenever `filterEnabled` is
true — same compensation factor, same pan (for on-field `x ∈ [0,1]`, where the
engine's clamp is the identity), and in the highpass/lowpass regions the same
filter type and identical numeric cutoff; in the pass band the overlay shows
"OFF" with no frequency while the engine applies the pass-through lowpass at
20000 Hz.  When `filterEnabled` is false the two can disagree
(`c1_counterexample`), because the overlay does not receive that flag. -/
theorem c1_overlay_engine_agree (x y size : ℚ) (hx0 : 0 ≤ x) (hx1 : x ≤ 1) :
    (getFilterDebugInfo x y size).comp = engineCompensation true y ∧
    (getFilterDebugInfo x y size).pan = enginePan x ∧
    (y < 2/5 →
      (getFilterDebugInfo x y size).ftype = DebugFilterType.HPF ∧
      (applyFilter y true).ftype = FilterType.highpass ∧
      (getFilterDebugInfo x y size).freq = some (applyFilter y true).freq) ∧
    (3/5 < y →
      (getFilterDebugInfo x y size).ftype = DebugFilterType.LPF ∧
      (applyFilter y true).ftype = FilterType.lowpass ∧
      (getFilterDebugInfo x y size).freq = some (applyFilter y true).freq) ∧
    (2/5 ≤ y → y ≤ 3/5 →
      (getFilterDebugInfo x y size).ftype = DebugFilterType.OFF ∧
      (getFilterDebugInfo x y size).freq = none ∧
      (applyFilter y true).ftype = FilterType.lowpass ∧
      (applyFilter y true).freq = 20000) := by
  refine ⟨?_, ?_, ?_, ?_, ?_⟩
  · by_cases h1 : y < 2/5
    · have hn : ¬((2:ℚ)/5 ≤ y ∧ y ≤ 3/5) := fun hc => absurd h1 (not_lt.mpr hc.1)
      simp [getFilterDebugInfo, engineCompensation, getFilterCompensation, h1, hn]
    · by_cases h2 : y > 3/5
      · have hn : ¬((2:ℚ)/5 ≤ y ∧ y ≤ 3/5) := fun hc => absurd h2 (not_lt.mpr hc.2)
        simp [getFilterDebugInfo, engineCompensation, getFilterCompensation, h1, h2, hn]
      · have h3 : (2:ℚ)/5 ≤ y ∧ y ≤ 3/5 := ⟨not_lt.mp h1, not_lt.mp h2⟩
        simp [getFilterDebugInfo, engineCompensation, getFilterCompensation, h1, h2, h3]
  · unfold getFilterDebugInfo enginePan
    have hle : x * 2 - 1 ≤ 1 := by linarith
    have hge : (-1:ℚ) ≤ x * 2 - 1 := by linarith
    simp [min_eq_right hle, max_eq_right hge]
  · intro hy
    have hy' : ¬ (2:ℚ)/5 ≤ y := not_le.mpr hy
    refine ⟨?_, ?_, ?_⟩ <;> simp [getFilterDebugInfo, applyFilter, hy, hy']
  · intro hy
    have h1 : ¬ y < 2/5 := by linarith
    have h2 : y > 3/5 := hy
    refine ⟨?_, ?_, ?_⟩ <;> simp [getFilterDebugInfo, applyFilter, h1, h2]
  · intro hy1 hy2
    have h1 : ¬ y < 2/5 := not_lt.mpr hy1
    have h2 : ¬ y > 3/5 := not_lt.mpr hy2
    refine ⟨?_, ?_, ?_, ?_⟩ <;> simp [getFilterDebugInfo, applyFilter, h1, h2]

/-- Witness for the amended C1 at `x = 1/4, y = 1/5, size = 120`. -/
theorem c1_overlay_engine_agree_witness :
    ((0:ℚ) ≤ 1/4 ∧ (1:ℚ)/4 ≤ 1) ∧
    ((getFilterDebugInfo (1/4) (1/5) 120).comp = engineCompensation true (1/5) ∧
      (getFilterDebugInfo (1/4) (1/5) 120).pan = enginePan (1/4) ∧
      ((1:ℚ)/5 < 2/5 →
        (getFilterDebugInfo (1/4) (1/5) 120).ftype = DebugFilterType.HPF ∧
        (applyFilter (1/5) true).ftype = FilterType.highpass ∧
        (getFilterDebugInfo (1/4) (1/5) 120).freq = some (applyFilter (1/5) true).freq) ∧
      ((3:ℚ)/5 < 1/5 →
        (getFilterDebugInfo (1/4) (1/5) 120).ftype = DebugFilterType.LPF ∧
        (applyFilter (1/5) true).ftype = FilterType.lowpass ∧
        (getFilterDebugInfo (1/4) (1/5) 120).freq = some (applyFilter (1/5) true).freq) ∧
      ((2:ℚ)/5 ≤ 1/5 → (1:ℚ)/5 ≤ 3/5 →
        (getFilterDebugInfo (1/4) (1/5) 120).ftype = DebugFilterType.OFF ∧
        (getFilterDebugInfo (1/4) (1/5) 120).freq = none ∧
        (applyFilter (1/5) true).ftype = FilterType.lowpass ∧
        (applyFilter (1/5) true).freq = 20000)) :=
  ⟨⟨by norm_num, by norm_num⟩,
    c1_overlay_engine_agree (1/4) (1/5) 120 (by norm_num) (by norm_num)⟩

/-- C7: start scheduling.  On a nonnegative audio clock, a `startAt` that is
`null` or not strictly in the future starts the source immediately
(`source.start(0)`) with the target gain already set at creation time; a
strictly future `startAt` starts the source at `startAt`, the gain is 0 on the
whole interval `[now, startAt)` (no audible output before the timestamp) and
equals the target gain exactly at `startAt`. -/
theorem c7_start_scheduling (now v : ℚ) (startAt : Option ℚ) (h0 : 0 ≤ now) :
    (∀ s, startAt = some s → now < s →
      (startSoundSchedule now v startAt).sourceStartArg = s ∧
      (∀ τ, now ≤ τ → τ < s →
        gainValueAt (startSoundSchedule now v startAt).gainEvents 1 τ = 0) ∧
      gainValueAt (startSoundSchedule now v startAt).gainEvents 1 s = v) ∧
    (∀ s, startAt = some s → ¬ now < s →
      (startSoundSchedule now v startAt).sourceStartArg = 0 ∧
      gainValueAt (startSoundSchedule now v startAt).gainEvents 1 now = v) ∧
    (startAt = none →
      (startSoundSchedule now v startAt).sourceStartArg = 0 ∧
      gainValueAt (startSoundSchedule now v startAt).gainEvents 1 now = v) := by
  refine ⟨?_, ?_, ?_⟩
  · rintro s rfl hs
    have hcond : s ≠ 0 ∧ s > now := ⟨(h0.trans_lt hs).ne', hs⟩
    refine ⟨?_, ?_, ?_⟩
    · simp [startSoundSchedule, if_pos hcond]
    · intro τ h1 h2
      simp [startSoundSchedule, if_pos hcond, gainValueAt, h1, not_le.mpr h2]
    · simp [startSoundSchedule, if_pos hcond, gainValueAt, le_of_lt hs]
  · rintro s rfl hs
    have hcond : ¬(s ≠ 0 ∧ s > now) := fun hc => hs hc.2
    refine ⟨?_, ?_⟩ <;> simp [startSoundSchedule, if_neg hcond, gainValueAt]
  · rintro rfl
    refine ⟨?_, ?_⟩ <;> simp [startSoundSchedule, gainValueAt]

/-- Witness for C7 at `now = 0`, target gain `1/2`, `startAt = some 1`. -/
theorem c7_start_scheduling_witness :
    ((0:ℚ) ≤ 0) ∧
    ((∀ s, (some (1:ℚ)) = some s → (0:ℚ) < s →
      (startSoundSchedule 0 (1/2) (some 1)).sourceStartArg = s ∧
      (∀ τ, (0:ℚ) ≤ τ → τ < s →
        gainValueAt (startSoundSchedule 0 (1/2) (some 1)).gainEvents 1 τ = 0) ∧
      gainValueAt (startSoundSchedule 0 (1/2) (some 1)).gainEvents 1 s = 1/2) ∧
    (∀ s, (some (1:ℚ)) = some s → ¬ (0:ℚ) < s →
      (startSoundSchedule 0 (1/2) (some 1)).sourceStartArg = 0 ∧
      gainValueAt (startSoundSchedule 0 (1/2) (some 1)).gainEvents 1 0 = 1/2) ∧
    ((some (1:ℚ)) = none →
      (startSoundSchedule 0 (1/2) (some 1)).sourceStartArg = 0 ∧
      gainValueAt (startSoundSchedule 0 (1/2) (some 1)).gainEvents 1 0 = 1/2)) :=
  ⟨le_refl 0, c7_start_scheduling 0 (1/2) (some 1) (le_refl 0)⟩

/-- Lookup after erasing a key finds nothing. -/
theorem mapLookup_erase_self (m : NodesMap) (k : ℕ) :
    mapLookup (List.filter (fun p => p.1 != k) m) k = none := by
  unfold mapLookup
  rw [List.find?_eq_none.mpr]
  · rfl
  · intro x hx
    have hx2 := (List.mem_filter.mp hx).2
    simp only [bne_iff_ne, ne_eq] at hx2
    simp [hx2]

/-- Lookup of a different key is unchanged by an erase. -/
theorem mapLookup_erase_ne (m : NodesMap) (k j : ℕ) (hj : j ≠ k) :
    mapLookup (List.filter (fun p => p.1 != k) m) j = mapLookup m j := by
  induction m with
  | nil => rfl
  | cons p m ih =>
    by_cases hp : p.1 = k
    · have h1 : (p.1 != k) = false := by simp [hp]
      have h2 : (p.1 == j) = false := by simp [hp]; omega
      simpa [mapLookup, List.filter_cons, h1, List.find?_cons, h2] using ih
    · have h1 : (p.1 != k) = true := by simp [hp]
      by_cases hq : p.1 = j
      · simp [mapLookup, List.filter_cons, h1, List.find?_cons, hq, hj]
      · have h2 : (p.1 == j) = false := by simp [hq]
        simpa [mapLookup, List.filter_cons, h1, List.find?_cons, h2] using ih

/-- Stopping an id with no entry is a no-op releasing nothing. -/
theorem stopSound_absent (m : NodesMap) (k : ℕ) (h : mapLookup m k = none) :
    stopSound m k = (m, []) := by
  unfold stopSound; rw [h]

/-- C8: `stopSound` is total (the JS try/catch swallows "already stopped"
errors) and idempotent: after any call the voice's entry is gone from the node
map, all other voices are untouched, a repeat call is a no-op releasing
nothing, a call on a present voice releases exactly its chain resources, and a
call on a never-started/already-stopped voice changes nothing. -/
theorem c8_stop_idempotent_total (m : NodesMap) (orbId : ℕ) :
    mapLookup (stopSound m orbId).1 orbId = none ∧
    (∀ j, j ≠ orbId → mapLookup (stopSound m orbId).1 j = mapLookup m j) ∧
    stopSound (stopSound m orbId).1 orbId = ((stopSound m orbId).1, []) ∧
    (∀ c, mapLookup m orbId = some c →
      (stopSound m orbId).2 = chainResources c) ∧
    (mapLookup m orbId = none → stopSound m orbId = (m, [])) := by
  cases h : mapLookup m orbId with
  | none =>
      have hs : stopSound m orbId = (m, []) := stopSound_absent m orbId h
      have h1 : mapLookup (stopSound m orbId).1 orbId = none := by
        rw [hs]; exact h
      refine ⟨h1, ?_, stopSound_absent _ orbId h1, ?_, fun _ => hs⟩
      · intro j _
        rw [hs]
      · intro c hc
        exact Option.noConfusion hc
  | some c =>
      have hs : stopSound m orbId =
          (List.filter (fun p => p.1 != orbId) m, chainResources c) := by
        unfold stopSound; rw [h]
      have h1 : mapLookup (stopSound m orbId).1 orbId = none := by
        rw [hs]; exact mapLookup_erase_self m orbId
      refine ⟨h1, ?_, stopSound_absent _ orbId h1, ?_, ?_⟩
      · intro j hj
        rw [hs]; exact mapLookup_erase_ne m orbId j hj
      · intro c' hc'
        cases hc'
        rw [hs]
      · intro hc
        exact Option.noConfusion hc

/-- Witness for C8 on a concrete two-voice map: stopping voice 1 removes it,
leaves voice 2 alone, releases voice 1's chain, and a second stop is a
no-op. -/
theorem c8_stop_idempotent_total_witness :
    (2 ≠ 1 ∧ mapLookup nodesMapExample 1 = some ⟨1, 2, 3, 4, 5, 6⟩) ∧
    (mapLookup (stopSound nodesMapExample 1).1 1 = none ∧
      mapLookup (stopSound nodesMapExample 1).1 2 = mapLookup nodesMapExample 2 ∧
      stopSound (stopSound nodesMapExample 1).1 1 = ((stopSound nodesMapExample 1).1, []) ∧
      (stopSound nodesMapExample 1).2 = chainResources ⟨1, 2, 3, 4, 5, 6⟩) :=
  ⟨⟨by decide, by decide⟩,
    (c8_stop_idempotent_total nodesMapExample 1).1,
    (c8_stop_idempotent_total nodesMapExample 1).2.1 2 (by decide),
    (c8_stop_idempotent_total nodesMapExample 1).2.2.1,
    (c8_stop_idempotent_total nodesMapExample 1).2.2.2.1 ⟨1, 2, 3, 4, 5, 6⟩ (by decide)⟩

/-- Wrapping into int16 is the identity on values already in
`[-32768, 32767]`. -/
theorem int16_wrap_eq_self (t : ℤ) (h1 : -32768 ≤ t) (h2 : t ≤ 32767) :
    (t + 32768) % 65536 - 32768 = t := by
  have h3 : (t + 32768) % 65536 = t + 32768 :=
    Int.emod_eq_of_lt (by omega) (by omega)
  omega

/-- Truncation toward zero stays inside an integer interval around the
value. -/
theorem jsTrunc_bounds (r : ℝ) (h1 : -32768 ≤ r) (h2 : r ≤ 32767) :
    -32768 ≤ jsTrunc r ∧ jsTrunc r ≤ 32767 := by
  unfold jsTrunc
  by_cases h0 : 0 ≤ r
  · rw [if_pos h0]
    constructor
    · have : (0:ℤ) ≤ ⌊r⌋ := Int.le_floor.mpr (by exact_mod_cast h0)
      omega
    · have h := le_trans (Int.floor_le r) h2
      exact_mod_cast h
  · rw [if_neg h0]
    constructor
    · have h := le_trans h1 (Int.le_ceil r)
      exact_mod_cast h
    · have : ⌈r⌉ ≤ (0:ℤ) :=
        Int.ceil_le.mpr (by exact_mod_cast le_of_lt (not_le.mp h0))
      omega

/-- The scaled sample lies in `[-32768, 32767]` as a real. -/
theorem wavScaled_bounds (s : ℝ) : -32768 ≤ wavScaled s ∧ wavScaled s ≤ 32767 := by
  unfold wavScaled
  have hc1 : (-1:ℝ) ≤ max (-1) (min 1 s) := le_max_left _ _
  have hc2 : max (-1) (min 1 s) ≤ 1 := max_le (by norm_num) (min_le_left _ _)
  by_cases hneg : max (-1) (min 1 s) < 0
  · rw [if_pos hneg]
    constructor <;> nlinarith
  · rw [if_neg hneg]
    have h0 : (0:ℝ) ≤ max (-1) (min 1 s) := not_lt.mp hneg
    constructor <;> nlinarith

/-- Every written WAV sample integer lies in `[-32768, 32767]`. -/
theorem wavSample_bounds (s : ℝ) : -32768 ≤ wavSample s ∧ wavSample s ≤ 32767 := by
  unfold wavSample jsToInt16
  obtain ⟨hr1, hr2⟩ := wavScaled_bounds s
  obtain ⟨ht1, ht2⟩ := jsTrunc_bounds _ hr1 hr2
  rw [int16_wrap_eq_self _ ht1 ht2]
  exact ⟨ht1, ht2⟩

/-- Clamping to `[-1, 1]` is idempotent. -/
theorem clamp11_idem (u : ℝ) :
    max (-1) (min 1 (max (-1) (min 1 u))) = max (-1) (min 1 u) := by
  have hc1 : (-1:ℝ) ≤ max (-1) (min 1 u) := le_max_left _ _
  have hc2 : max (-1) (min 1 u) ≤ 1 := max_le (by norm_num) (min_le_left _ _)
  rw [min_eq_right hc2, max_eq_right hc1]

/-- C9: WAV export quantization.  For an in-range sample the written integer
is the truncation of `s * 32768` (negative side) or `s * 32767` (non-negative
side) — so `-1 ↦ -32768` and `+1 ↦ +32767`; out-of-range floats are clamped to
`[-1, 1]` first; and every integer of the interleaved data chunk of any buffer
lies in `[-32768, 32767]`. -/
theorem c9_wav_quantization (buf : JSAudioBuffer) (s : ℝ)
    (hs1 : -1 ≤ s) (hs2 : s ≤ 1) :
    wavSample s = (if s < 0 then ⌈s * 32768⌉ else ⌊s * 32767⌋) ∧
    (∀ u : ℝ, wavSample u = wavSample (max (-1) (min 1 u))) ∧
    wavSample (-1) = -32768 ∧
    wavSample 1 = 32767 ∧
    (∀ v ∈ wavDataInts buf, -32768 ≤ v ∧ v ≤ 32767) := by
  have hclamp : max (-1) (min 1 s) = s := by
    rw [min_eq_right hs2, max_eq_right hs1]
  refine ⟨?_, ?_, ?_, ?_, ?_⟩
  · unfold wavSample jsToInt16 wavScaled jsTrunc
    rw [hclamp]
    by_cases hneg : s < 0
    · rw [if_pos hneg, if_pos hneg]
      have hlt : s * 32768 < 0 := by nlinarith
      rw [if_neg (not_le.mpr hlt)]
      have hb1 : (-32768:ℤ) ≤ ⌈s * 32768⌉ := by
        have h := le_trans (show (-32768:ℝ) ≤ s * 32768 by nlinarith)
          (Int.le_ceil (s * 32768))
        exact_mod_cast h
      have hb2 : ⌈s * 32768⌉ ≤ 32767 := by
        have : ⌈s * 32768⌉ ≤ (0:ℤ) :=
          Int.ceil_le.mpr (by exact_mod_cast le_of_lt hlt)
        omega
      exact int16_wrap_eq_self _ hb1 hb2
    · rw [if_neg hneg, if_neg hneg]
      have h0 : (0:ℝ) ≤ s := not_lt.mp hneg
      have hge : (0:ℝ) ≤ s * 32767 := by nlinarith
      rw [if_pos hge]
      have hb1 : (-32768:ℤ) ≤ ⌊s * 32767⌋ := by
        have : (0:ℤ) ≤ ⌊s * 32767⌋ := Int.le_floor.mpr (by exact_mod_cast hge)
        omega
      have hb2 : ⌊s * 32767⌋ ≤ 32767 := by
        have h := le_trans (Int.floor_le (s * 32767))
          (show s * 32767 ≤ (32767:ℝ) by nlinarith)
        exact_mod_cast h
      exact int16_wrap_eq_self _ hb1 hb2
  · intro u
    unfold wavSample wavScaled
    rw [clamp11_idem]
  · unfold wavSample wavScaled
    have h1 : max (-1) (min 1 (-1:ℝ)) = -1 := by norm_num
    rw [h1, if_pos (by norm_num : (-1:ℝ) < 0)]
    have h2 : (-1:ℝ) * 32768 = ((-32768:ℤ):ℝ) := by norm_num
    rw [h2]
    unfold jsToInt16 jsTrunc
    rw [if_neg (by push_cast; norm_num : ¬ (0:ℝ) ≤ ((-32768:ℤ):ℝ)), Int.ceil_intCast]
    decide
  · unfold wavSample wavScaled
    have h1 : max (-1) (min 1 (1:ℝ)) = 1 := by norm_num
    rw [h1, if_neg (by norm_num : ¬ (1:ℝ) < 0)]
    have h2 : (1:ℝ) * 32767 = ((32767:ℤ):ℝ) := by norm_num
    rw [h2]
    unfold jsToInt16 jsTrunc
    rw [if_pos (by push_cast; norm_num : (0:ℝ) ≤ ((32767:ℤ):ℝ)), Int.floor_intCast]
    decide
  · intro v hv
    obtain ⟨i, _, hv2⟩ := List.mem_flatMap.mp hv
    obtain ⟨cd, _, hv3⟩ := List.mem_map.mp hv2
    exact hv3 ▸ wavSample_bounds _

/-- Witness for C9 at `s = -1/2` on a concrete one-channel buffer. -/
theorem c9_wav_quantization_witness :
    ((-1:ℝ) ≤ -1/2 ∧ (-1/2:ℝ) ≤ 1) ∧
    (wavSample (-1/2) = (if (-1/2:ℝ) < 0 then ⌈(-1/2:ℝ) * 32768⌉ else ⌊(-1/2:ℝ) * 32767⌋) ∧
      (∀ u : ℝ, wavSample u = wavSample (max (-1) (min 1 u))) ∧
      wavSample (-1) = -32768 ∧
      wavSample 1 = 32767 ∧
      (∀ v ∈ wavDataInts ⟨44100, 2, [[-2, 1/2]]⟩, -32768 ≤ v ∧ v ≤ 32767)) :=
  ⟨⟨by norm_num, by norm_num⟩,
    c9_wav_quantization ⟨44100, 2, [[-2, 1/2]]⟩ (-1/2) (by norm_num) (by norm_num)⟩

/-- C10: LUFS normalization preserves the buffer shape: same sample rate, same
channel count, same frame count — on the silent path (input returned as is)
and on the scaling path (fresh buffer of identical shape); only sample values
change. -/
theorem c10_normalize_shape (buf : JSAudioBuffer) (t : ℝ)
    (hwf : ∀ c ∈ buf.channels, c.length = buf.len) :
    (normalizeLUFS buf t).sampleRate = buf.sampleRate ∧
    (normalizeLUFS buf t).numberOfChannels = buf.numberOfChannels ∧
    (normalizeLUFS buf t).len = buf.len ∧
    (∀ c ∈ (normalizeLUFS buf t).channels, c.length = buf.len) := by
  cases hm : measureIntegratedLUFS buf with
  | negInf =>
      have hn : normalizeLUFS buf t = buf := by
        unfold normalizeLUFS; rw [hm]
      rw [hn]
      exact ⟨rfl, rfl, rfl, hwf⟩
  | fin current =>
      have hn : normalizeLUFS buf t =
          { sampleRate := buf.sampleRate
            len := buf.len
            channels := buf.channels.map (fun cd =>
              (List.range buf.len).map (fun i =>
                cd.getD i 0 * min (max ((10:ℝ) ^ ((t - current) / 20)) 0.01) 10)) } := by
        unfold normalizeLUFS; rw [hm]
      rw [hn]
      refine ⟨rfl, by simp [JSAudioBuffer.numberOfChannels], rfl, ?_⟩
      intro c hc
      obtain ⟨cd, _, rfl⟩ := List.mem_map.mp hc
      simp

/-- Witness for C10 on a concrete two-frame buffer. -/
theorem c10_normalize_shape_witness :
    (∀ c ∈ (⟨10, 2, [[1, 0]]⟩ : JSAudioBuffer).channels,
      c.length = (⟨10, 2, [[1, 0]]⟩ : JSAudioBuffer).len) ∧
    ((normalizeLUFS ⟨10, 2, [[1, 0]]⟩ (-30)).sampleRate =
        (⟨10, 2, [[1, 0]]⟩ : JSAudioBuffer).sampleRate ∧
      (normalizeLUFS ⟨10, 2, [[1, 0]]⟩ (-30)).numberOfChannels =
        (⟨10, 2, [[1, 0]]⟩ : JSAudioBuffer).numberOfChannels ∧
      (normalizeLUFS ⟨10, 2, [[1, 0]]⟩ (-30)).len =
        (⟨10, 2, [[1, 0]]⟩ : JSAudioBuffer).len ∧
      (∀ c ∈ (normalizeLUFS ⟨10, 2, [[1, 0]]⟩ (-30)).channels,
        c.length = (⟨10, 2, [[1, 0]]⟩ : JSAudioBuffer).len)) :=
  ⟨by simp, c10_normalize_shape ⟨10, 2, [[1, 0]]⟩ (-30) (by simp)⟩

/-- A biquad stage fed all zeros from zero state emits all zeros. -/
theorem biquadRun_zero (c : BiquadCoeffs) :
    ∀ (xs : List ℝ), (∀ x ∈ xs, x = 0) →
      ∀ x1 x2 y1 y2, x1 = 0 → x2 = 0 → y1 = 0 → y2 = 0 →
        ∀ z ∈ biquadRun c x1 x2 y1 y2 xs, z = 0 := by
  intro xs
  induction xs with
  | nil =>
      intro _ x1 x2 y1 y2 _ _ _ _ z hz
      simp [biquadRun] at hz
  | cons x xs ih =>
      intro hxs x1 x2 y1 y2 h1 h2 h3 h4 z hz
      have hx : x = 0 := hxs x (by simp)
      have hy0 : c.b0 * x + c.b1 * x1 + c.b2 * x2 - c.a1 * y1 - c.a2 * y2 = 0 := by
        rw [hx, h1, h2, h3, h4]; ring
      rw [show biquadRun c x1 x2 y1 y2 (x :: xs) =
            (c.b0 * x + c.b1 * x1 + c.b2 * x2 - c.a1 * y1 - c.a2 * y2)
              :: biquadRun c x x1
                (c.b0 * x + c.b1 * x1 + c.b2 * x2 - c.a1 * y1 - c.a2 * y2) y1 xs
          from rfl] at hz
      rcases List.mem_cons.mp hz with h | h
      · rw [h]; exact hy0
      · exact ih (fun a ha => hxs a (by simp [ha])) x x1 _ y1 hx h1 hy0 h3 z h

/-- K-weighting a silent channel yields a silent channel. -/
theorem applyKWeighting_zero (xs : List ℝ) (sr : ℕ) (h : ∀ x ∈ xs, x = 0) :
    ∀ z ∈ applyKWeighting xs sr, z = 0 := by
  unfold applyKWeighting
  exact biquadRun_zero (kCoeffs2 sr) _
    (fun w hw => biquadRun_zero (kCoeffs1 sr) xs h 0 0 0 0 rfl rfl rfl rfl w hw)
    0 0 0 0 rfl rfl rfl rfl

/-- Reading with default 0 from an all-zero list gives 0 everywhere. -/
theorem getD_zero (d : List ℝ) (h : ∀ x ∈ d, x = 0) (n : ℕ) : d.getD n 0 = 0 := by
  induction d generalizing n with
  | nil => simp
  | cons a d ih =>
      cases n with
      | zero => simpa using h a (by simp)
      | succ n => simpa using ih (fun x hx => h x (by simp [hx])) n

/-- Sums of squares over an all-zero channel vanish. -/
theorem sumSqFrom_zero (d : List ℝ) (h : ∀ x ∈ d, x = 0) (start n : ℕ) :
    sumSqFrom d start n = 0 := by
  unfold sumSqFrom
  apply List.sum_eq_zero
  intro x hx
  obtain ⟨j, _, rfl⟩ := List.mem_map.mp hx
  rw [getD_zero d h]; ring

/-- All K-weighted channels of a silent buffer are silent. -/
theorem kWeightedChannels_zero (buf : JSAudioBuffer)
    (hz : ∀ c ∈ buf.channels, ∀ s ∈ c, s = 0) :
    ∀ d ∈ kWeightedChannels buf, ∀ x ∈ d, x = 0 := by
  intro d hd
  obtain ⟨cd, hcd, rfl⟩ := List.mem_map.mp hd
  exact applyKWeighting_zero cd _ (hz cd hcd)

/-- C6: on an all-zero buffer, `measureIntegratedLUFS` returns the `-∞`
sentinel and `normalizeLUFS` returns the identical input buffer unchanged (a
no-op pass-through, not an error). -/
theorem c6_silent_buffer (buf : JSAudioBuffer) (t : ℝ)
    (hz : ∀ c ∈ buf.channels, ∀ s ∈ c, s = 0) :
    measureIntegratedLUFS buf = LVal.negInf ∧ normalizeLUFS buf t = buf := by
  have hkw := kWeightedChannels_zero buf hz
  have hblocks : ∀ l ∈ blockLoudnessList buf, l = LVal.negInf := by
    intro l hl
    obtain ⟨start, _, rfl⟩ := List.mem_map.mp hl
    have hp : blockPowerAt (kWeightedChannels buf)
        (measureBlockSize buf.sampleRate) start = 0 := by
      unfold blockPowerAt
      apply List.sum_eq_zero
      intro x hx
      obtain ⟨d, hd, rfl⟩ := List.mem_map.mp hx
      rw [sumSqFrom_zero d (hkw d hd)]
      simp
    rw [hp]
    unfold lvalOfPower
    rw [if_neg (by norm_num)]
  have hmeas : measureIntegratedLUFS buf = LVal.negInf := by
    have hw : wholeBufferPower buf = 0 := by
      unfold wholeBufferPower
      apply List.sum_eq_zero
      intro x hx
      obtain ⟨d, hd, rfl⟩ := List.mem_map.mp hx
      rw [sumSqFrom_zero d (hkw d hd)]
      simp
    have hfilter : (blockLoudnessList buf).filter (fun l => l.gtR (-70)) = [] := by
      apply List.filter_eq_nil_iff.mpr
      intro l hl
      rw [hblocks l hl]
      simp [LVal.gtR]
    by_cases hemp : (blockLoudnessList buf).isEmpty
    · simp only [measureIntegratedLUFS, hemp, if_true]
      rw [hw]
      unfold lvalOfPower
      rw [if_neg (by norm_num)]
    · simp only [measureIntegratedLUFS, hfilter]
      simp [hemp]
  exact ⟨hmeas, by unfold normalizeLUFS; rw [hmeas]⟩

/-- Witness for C6 on a concrete all-zero buffer. -/
theorem c6_silent_buffer_witness :
    (∀ c ∈ bufZero.channels, ∀ s ∈ c, s = 0) ∧
    (measureIntegratedLUFS bufZero = LVal.negInf ∧
      normalizeLUFS bufZero (-30) = bufZero) :=
  ⟨by simp [bufZero], c6_silent_buffer bufZero (-30) (by simp [bufZero])⟩

/-- C5 counterexample: the claimed BS.1770 cascade (relative gate discards
from the absolute-gate survivors) disagrees with the gating the source
performs (relative gate re-filters the full block list, useAudioEngine.js:433)
on the concrete block-loudness list `[-65 LUFS, -72 LUFS]`: the absolute gate
keeps only the -65 block, the relative threshold is then `-65 - 10 = -75`,
and the source's final mean re-admits the -72 block the absolute gate had
discarded, giving a result strictly below the cascade's -65.  Together with
`c5_two_stage_gating` (the measurement IS the full-list gating of the block
list), this refutes the claim's description of `measureIntegratedLUFS`; such
block lists arise from quiet signals whose gated loudness sits below
-60 LUFS. -/
theorem c5_counterexample :
    gatingFullListLUFS [LVal.fin (-65), LVal.fin (-72)] ≠
      gatingCascadeLUFS [LVal.fin (-65), LVal.fin (-72)] := by
  have hA : (0:ℝ) < (10:ℝ) ^ (((-65:ℝ) + 0.691) / 10) :=
    Real.rpow_pos_of_pos (by norm_num) _
  have hB : (0:ℝ) < (10:ℝ) ^ (((-72:ℝ) + 0.691) / 10) :=
    Real.rpow_pos_of_pos (by norm_num) _
  have hBA : (10:ℝ) ^ (((-72:ℝ) + 0.691) / 10) < (10:ℝ) ^ (((-65:ℝ) + 0.691) / 10) := by
    rw [Real.rpow_lt_rpow_left_iff (by norm_num : (1:ℝ) < 10)]
    norm_num
  have hlogA : Real.logb 10 ((10:ℝ) ^ (((-65:ℝ) + 0.691) / 10)) = ((-65:ℝ) + 0.691) / 10 :=
    Real.logb_rpow (by norm_num) (by norm_num)
  have h65abs : (LVal.fin (-65)).gtR (-70) = true := by
    simp only [LVal.gtR, decide_eq_true_eq]
    norm_num
  have h72abs : (LVal.fin (-72)).gtR (-70) = false := by
    simp only [LVal.gtR, decide_eq_false_iff_not]
    norm_num
  have habs : List.filter (fun l => l.gtR (-70)) [LVal.fin (-65), LVal.fin (-72)] =
      [LVal.fin (-65)] := by
    simp [List.filter_cons, h65abs, h72abs]
  have hmean1 : meanPower [LVal.fin (-65)] = (10:ℝ) ^ (((-65:ℝ) + 0.691) / 10) := by
    simp [meanPower, LVal.power]
  have hrelTh : loudnessOfPower (meanPower [LVal.fin (-65)]) - 10 = -75 := by
    rw [hmean1]
    unfold loudnessOfPower
    rw [hlogA]
    norm_num
  have h65rel : (LVal.fin (-65)).gtR (-75) = true := by
    simp only [LVal.gtR, decide_eq_true_eq]
    norm_num
  have h72rel : (LVal.fin (-72)).gtR (-75) = true := by
    simp only [LVal.gtR, decide_eq_true_eq]
    norm_num
  have hfilc : List.filter (fun l => l.gtR (-75)) [LVal.fin (-65)] = [LVal.fin (-65)] := by
    simp [List.filter_cons, h65rel]
  have hfilf : List.filter (fun l => l.gtR (-75)) [LVal.fin (-65), LVal.fin (-72)] =
      [LVal.fin (-65), LVal.fin (-72)] := by
    simp [List.filter_cons, h65rel, h72rel]
  have hcascade : gatingCascadeLUFS [LVal.fin (-65), LVal.fin (-72)] = LVal.fin (-65) := by
    simp only [gatingCascadeLUFS, habs, hrelTh, hfilc, List.isEmpty_cons,
      Bool.false_eq_true, if_false]
    rw [hmean1]
    unfold loudnessOfPower
    rw [hlogA]
    rw [show (-0.691 + 10 * (((-65:ℝ) + 0.691) / 10)) = -65 by norm_num]
  have hmean2 : meanPower [LVal.fin (-65), LVal.fin (-72)] =
      ((10:ℝ) ^ (((-65:ℝ) + 0.691) / 10) + (10:ℝ) ^ (((-72:ℝ) + 0.691) / 10)) / 2 := by
    simp [meanPower, LVal.power]
  have hfull : gatingFullListLUFS [LVal.fin (-65), LVal.fin (-72)] =
      LVal.fin (loudnessOfPower (meanPower [LVal.fin (-65), LVal.fin (-72)])) := by
    simp only [gatingFullListLUFS, habs, hrelTh, hfilf, List.isEmpty_cons,
      Bool.false_eq_true, if_false]
  rw [hfull, hcascade]
  intro heq
  have heq2 : loudnessOfPower (meanPower [LVal.fin (-65), LVal.fin (-72)]) = -65 :=
    LVal.fin.inj heq
  have hlt : loudnessOfPower (meanPower [LVal.fin (-65), LVal.fin (-72)]) < -65 := by
    rw [hmean2]
    unfold loudnessOfPower
    have hmlt : ((10:ℝ) ^ (((-65:ℝ) + 0.691) / 10) +
        (10:ℝ) ^ (((-72:ℝ) + 0.691) / 10)) / 2 < (10:ℝ) ^ (((-65:ℝ) + 0.691) / 10) := by
      linarith
    have hpos2 : (0:ℝ) < ((10:ℝ) ^ (((-65:ℝ) + 0.691) / 10) +
        (10:ℝ) ^ (((-72:ℝ) + 0.691) / 10)) / 2 := by
      linarith
    have hlog : Real.logb 10 (((10:ℝ) ^ (((-65:ℝ) + 0.691) / 10) +
          (10:ℝ) ^ (((-72:ℝ) + 0.691) / 10)) / 2) <
        Real.logb 10 ((10:ℝ) ^ (((-65:ℝ) + 0.691) / 10)) :=
      Real.logb_lt_logb (by norm_num) hpos2 hmlt
    rw [hlogA] at hlog
    linarith
  rw [heq2] at hlt
  exact lt_irrefl _ hlt

/-- C5 as amended: whenever the buffer holds at least one full 400 ms block
(and the 100 ms hop is nonzero, i.e. the sample rate is not absurdly small —
with a zero hop the source loop would not terminate), `measureIntegratedLUFS`
is exactly the two-stage gating of the per-block loudness list in which the
relative gate re-filters the FULL block list: drop blocks not above -70 LUFS
(`-∞` if none survive), set the relative threshold to the loudness of the
survivors' mean power minus 10 dB, drop from the full block list those not
above it — re-admitting sub-absolute-threshold blocks when that threshold is
below -70, a deviation from BS.1770's cascade (`c5_counterexample`) — and
return `-0.691 + 10·log10(mean power of the rest)` (`-∞` if nothing
remains). -/
theorem c5_two_stage_gating (buf : JSAudioBuffer)
    (h1 : measureBlockSize buf.sampleRate ≤ buf.len)
    (_h2 : 0 < measureStepSize buf.sampleRate) :
    measureIntegratedLUFS buf = gatingFullListLUFS (blockLoudnessList buf) := by
  have hne : (blockLoudnessList buf).isEmpty = false := by
    unfold blockLoudnessList blockStarts
    rw [if_pos h1]
    simp
  simp only [measureIntegratedLUFS, gatingFullListLUFS, loudnessOfPower, meanPower, hne,
    Bool.false_eq_true, if_false]

/-- At the toy rate 10 Hz the 400 ms block is 4 frames. -/
theorem measureBlockSize_ten : measureBlockSize 10 = 4 := by
  unfold measureBlockSize
  norm_num [round_eq]
  decide

/-- At the toy rate 10 Hz the 100 ms hop is 1 frame. -/
theorem measureStepSize_ten : measureStepSize 10 = 1 := by
  unfold measureStepSize
  norm_num [round_eq]

/-- At 48 kHz the 400 ms block is 19200 frames. -/
theorem measureBlockSize_48000 : measureBlockSize 48000 = 19200 := by
  unfold measureBlockSize
  norm_num [round_eq]
  decide

/-- Witness for C5 on `bufFour` (10 Hz toy rate: block = 4 frames, hop = 1
frame, one block). -/
theorem c5_two_stage_gating_witness :
    (measureBlockSize bufFour.sampleRate ≤ bufFour.len ∧
      0 < measureStepSize bufFour.sampleRate) ∧
    measureIntegratedLUFS bufFour = gatingFullListLUFS (blockLoudnessList bufFour) :=
  ⟨⟨by rw [show bufFour.sampleRate = 10 from rfl, measureBlockSize_ten]; decide, by
      rw [show bufFour.sampleRate = 10 from rfl, measureStepSize_ten]; norm_num⟩,
    c5_two_stage_gating bufFour
      (by rw [show bufFour.sampleRate = 10 from rfl, measureBlockSize_ten]; decide)
      (by rw [show bufFour.sampleRate = 10 from rfl, measureStepSize_ten]; norm_num)⟩

/-- C4: whenever the measured loudness is finite, `normalizeLUFS` returns a
newly built buffer of the input's shape in which every sample is the input
sample times the gain `clamp(10^((target - measured)/20), 0.01, 10)`; the gain
is inside `[0.01, 10]`; it depends only on the input measurement (the
verification remeasurement feeds only a log line — single pass), and the input
buffer, a pure value here, is untouched. -/
theorem c4_normalize_gain (buf : JSAudioBuffer) (target m : ℝ)
    (h : measureIntegratedLUFS buf = LVal.fin m) :
    (0.01 ≤ min (max ((10:ℝ) ^ ((target - m) / 20)) 0.01) 10 ∧
      min (max ((10:ℝ) ^ ((target - m) / 20)) 0.01) 10 ≤ 10) ∧
    normalizeLUFS buf target =
      { sampleRate := buf.sampleRate
        len := buf.len
        channels := buf.channels.map (fun cd =>
          (List.range buf.len).map (fun i =>
            cd.getD i 0 * min (max ((10:ℝ) ^ ((target - m) / 20)) 0.01) 10)) } := by
  refine ⟨⟨le_min (le_max_right _ _) (by norm_num), min_le_right _ _⟩, ?_⟩
  unfold normalizeLUFS
  rw [h]

/-- Positivity `tan(π·f0/sr) > 0` whenever `0 < f0` and `2·f0 < sr` (the angle lies in
`(0, π/2)`). -/
theorem tan_pos_small_angle (f0 : ℝ) (sr : ℕ) (hf : 0 < f0) (hsr : 2 * f0 < sr) :
    0 < Real.tan (Real.pi * f0 / sr) := by
  have hsr0 : (0:ℝ) < sr := lt_trans (by linarith) hsr
  have hpos : 0 < Real.pi * f0 / sr := by
    apply div_pos (mul_pos Real.pi_pos hf) hsr0
  have hlt : Real.pi * f0 / sr < Real.pi / 2 := by
    rw [div_lt_div_iff₀ hsr0 (by norm_num : (0:ℝ) < 2)]
    have h2 : Real.pi * (2 * f0) < Real.pi * sr :=
      mul_lt_mul_of_pos_left hsr Real.pi_pos
    nlinarith [h2]
  exact Real.tan_pos_of_pos_of_lt_pi_div_two hpos hlt

/-- The stage-1 shelf's `b0` is positive for realistic sample rates. -/
theorem kCoeffs1_b0_pos (sr : ℕ) (h : 3364 ≤ sr) : 0 < (kCoeffs1 sr).b0 := by
  have hcast : (3364:ℝ) ≤ sr := by exact_mod_cast h
  have hK : 0 < Real.tan (Real.pi * 1681.974450955533 / sr) :=
    tan_pos_small_angle _ sr (by norm_num) (by norm_num; linarith)
  have hVh : (0:ℝ) < (10:ℝ) ^ ((3.999843853973347:ℝ) / 20) :=
    Real.rpow_pos_of_pos (by norm_num) _
  have hVb : (0:ℝ) <
      ((10:ℝ) ^ ((3.999843853973347:ℝ) / 20)) ^ (0.4996667741545416:ℝ) :=
    Real.rpow_pos_of_pos hVh _
  unfold kCoeffs1
  dsimp only
  apply div_pos
  · have hmid : 0 < ((10:ℝ) ^ ((3.999843853973347:ℝ) / 20)) ^ (0.4996667741545416:ℝ) *
        Real.tan (Real.pi * 1681.974450955533 / sr) / 0.7071752369554196 := by
      apply div_pos (mul_pos hVb hK) (by norm_num)
    nlinarith [hmid, hVh, mul_pos hK hK]
  · have hdiv : 0 < Real.tan (Real.pi * 1681.974450955533 / sr) / 0.7071752369554196 :=
      div_pos hK (by norm_num)
    nlinarith [hdiv, mul_pos hK hK]

/-- The stage-2 high-pass's `b0` is positive for realistic sample rates. -/
theorem kCoeffs2_b0_pos (sr : ℕ) (h : 77 ≤ sr) : 0 < (kCoeffs2 sr).b0 := by
  have hcast : (77:ℝ) ≤ sr := by exact_mod_cast h
  have hK : 0 < Real.tan (Real.pi * 38.13547087602444 / sr) :=
    tan_pos_small_angle _ sr (by norm_num) (by norm_num; linarith)
  unfold kCoeffs2
  dsimp only
  apply div_pos one_pos
  have hdiv : 0 < Real.tan (Real.pi * 38.13547087602444 / sr) / 0.5003270373238773 :=
    div_pos hK (by norm_num)
  nlinarith [hdiv, mul_pos hK hK]

/-- K-weighting the one-sample channel `[1]` at 48 kHz yields the product of
the two stages' `b0` coefficients. -/
theorem applyKWeighting_bufOne :
    applyKWeighting [1] 48000 = [(kCoeffs2 48000).b0 * (kCoeffs1 48000).b0] := by
  unfold applyKWeighting
  simp [biquadRun]

/-- The fallback whole-buffer power of `bufOne` is the square of the combined
first-sample response. -/
theorem wholeBufferPower_bufOne :
    wholeBufferPower bufOne =
      ((kCoeffs2 48000).b0 * (kCoeffs1 48000).b0) *
        ((kCoeffs2 48000).b0 * (kCoeffs1 48000).b0) := by
  have hkw : kWeightedChannels bufOne =
      [[(kCoeffs2 48000).b0 * (kCoeffs1 48000).b0]] := by
    unfold kWeightedChannels bufOne
    simp [applyKWeighting_bufOne]
  have hsq : sumSqFrom [(kCoeffs2 48000).b0 * (kCoeffs1 48000).b0] 0 1 =
      ((kCoeffs2 48000).b0 * (kCoeffs1 48000).b0) *
        ((kCoeffs2 48000).b0 * (kCoeffs1 48000).b0) := by
    unfold sumSqFrom
    rw [show List.range 1 = [0] from rfl]
    simp
  unfold wholeBufferPower
  rw [hkw, show bufOne.len = 1 from rfl]
  simp [hsq]

/-- Buffer `bufOne` has positive fallback power, hence a finite measurement. -/
theorem measure_bufOne : measureIntegratedLUFS bufOne = LVal.fin measBufOne := by
  have hpos : 0 < wholeBufferPower bufOne := by
    rw [wholeBufferPower_bufOne]
    have := mul_pos (kCoeffs2_b0_pos 48000 (by norm_num))
      (kCoeffs1_b0_pos 48000 (by norm_num))
    exact mul_pos this this
  have hstarts : blockStarts (measureBlockSize 48000) (measureStepSize 48000) 1 = [] := by
    unfold blockStarts
    rw [if_neg]
    rw [measureBlockSize_48000]
    norm_num
  have hb : blockLoudnessList bufOne = [] := by
    unfold blockLoudnessList
    rw [show bufOne.sampleRate = 48000 from rfl, show bufOne.len = 1 from rfl, hstarts]
    rfl
  simp only [measureIntegratedLUFS, hb, List.isEmpty_nil, if_true]
  unfold lvalOfPower measBufOne
  rw [if_pos hpos]

/-- Witness for C4 on `bufOne` with target -30 LUFS. -/
theorem c4_normalize_gain_witness :
    measureIntegratedLUFS bufOne = LVal.fin measBufOne ∧
    ((0.01 ≤ min (max ((10:ℝ) ^ (((-30) - measBufOne) / 20)) 0.01) 10 ∧
        min (max ((10:ℝ) ^ (((-30) - measBufOne) / 20)) 0.01) 10 ≤ 10) ∧
      normalizeLUFS bufOne (-30) =
        { sampleRate := bufOne.sampleRate
          len := bufOne.len
          channels := bufOne.channels.map (fun cd =>
            (List.range bufOne.len).map (fun i =>
              cd.getD i 0 *
                min (max ((10:ℝ) ^ (((-30) - measBufOne) / 20)) 0.01) 10)) }) :=
  ⟨measure_bufOne, c4_normalize_gain bufOne (-30) measBufOne measure_bufOne⟩

end VSM
